import Mathlib

/-!
FTP server (`server.cpp`): protocol session and supervisor.

A shallow embedding of `server.cpp`.  One client session is a deterministic
machine: every iteration of a receive loop (the `while (serverRunning)` loop of
`handleClient`, or the nested `while (true)` loop of `handlePutCommand`) consumes
one event of the environment (the value of `recv`, or the `serverRunning` flag
read as false) and produces the list of `sendMessage` calls of that iteration.
The supervisor (`main`, `disconnectClient`, `signalHandler`) is a second machine
over the registry `clientSockets` and the vector `clientThreads`.
-/

namespace FtpServer

/-! ## Text -/

/-- A `std::string` or a received buffer: a sequence of `char`s. -/
abbrev Bytes := List Char

/-- The function `std::isspace` of the "C" locale, which `operator>>` uses to
delimit tokens: space, and the characters 9 to 13 (`\t \n \v \f \r`). -/
def isspace (c : Char) : Bool :=
  c.toNat == 32 || (9 ≤ c.toNat && c.toNat ≤ 13)

/-- The function `::toupper` of the "C" locale: `a`..`z` go to `A`..`Z`. -/
def toupper (c : Char) : Char :=
  if 97 ≤ c.toNat ∧ c.toNat ≤ 122 then Char.ofNat (c.toNat - 32) else c

/-- `toUpper`: `transform(str.begin(), str.end(), str.begin(), ::toupper)`. -/
def toUpper (str : Bytes) : Bytes :=
  str.map toupper

/-- `string(buffer)` on a buffer that was zeroed before `recv` filled its first
bytes: the string stops at the first NUL. -/
def cString (buffer : Bytes) : Bytes :=
  buffer.takeWhile (fun c => c.toNat != 0)

/-- One `iss >> token`: leading whitespace is skipped, the token runs up to the
next whitespace (or the end); the result is the token and the rest of the
stream.  A failed extraction leaves the token empty, and so does every later
one, since the stream is then at its end. -/
def extract (stream : Bytes) : Bytes × Bytes :=
  (stream.dropWhile isspace).span (fun c => !isspace c)

/-- First token of `iss >> command >> ...`. -/
def firstToken (message : Bytes) : Bytes :=
  (extract message).1

/-- Second token of `iss >> command >> filename` (or `username`). -/
def secondToken (message : Bytes) : Bytes :=
  (extract (extract message).2).1

/-- Third token of `iss >> command >> username >> password`. -/
def thirdToken (message : Bytes) : Bytes :=
  (extract (extract (extract message).2).2).1

/-- `to_string(n)` and `stream << n` for an unsigned integer: decimal digits. -/
def decimal (n : Nat) : Bytes :=
  (Nat.repr n).toList

/-! ## The directory -/

/-- One entry of the served directory. -/
structure Entry where
  name : Bytes
  regular : Bool
  content : Bytes
deriving DecidableEq

/-- The served `directory` together with the outcomes the environment decides:
the names for which opening an `ifstream` fails, those for which opening an
`ofstream` fails, and those for which `remove` fails. -/
structure FileStore where
  entries : List Entry
  unreadable : List Bytes
  unwritable : List Bytes
  undeletable : List Bytes
deriving DecidableEq

namespace FileStore

/-- `filesystem::exists(directory + "/" + filename)`. -/
def fileExists (fs : FileStore) (filename : Bytes) : Bool :=
  fs.entries.any (fun e => e.name == filename)

/-- What `file.rdbuf()` yields for an opened file: its bytes. -/
def read (fs : FileStore) (filename : Bytes) : Bytes :=
  match fs.entries.find? (fun e => e.name == filename) with
  | some e => e.content
  | none => []

/-- `ofstream file(filePath, ios::binary)` that opened: an existing file is
truncated, a missing one is created empty. -/
def truncate (fs : FileStore) (filename : Bytes) : FileStore :=
  if fs.fileExists filename then
    { fs with
      entries := fs.entries.map
        (fun e => if e.name == filename then { e with content := [] } else e) }
  else
    { fs with entries := fs.entries ++ [{ name := filename, regular := true, content := [] }] }

/-- `file.write(data.c_str(), bytesRead)` on the open `ofstream`. -/
def append (fs : FileStore) (filename : Bytes) (data : Bytes) : FileStore :=
  { fs with
    entries := fs.entries.map
      (fun e => if e.name == filename then { e with content := e.content ++ data } else e) }

/-- `remove(filePath.c_str())` that succeeded. -/
def delete (fs : FileStore) (filename : Bytes) : FileStore :=
  { fs with entries := fs.entries.filter (fun e => !(e.name == filename)) }

end FileStore

/-! ## Session state -/

/-- The locals of `handleClient` that survive an iteration. -/
structure Session where
  isAuthenticated : Bool
  loggedInUser : Bytes
  failedAttempts : Nat
deriving DecidableEq

/-- Where the session thread stands between two `recv` calls. -/
inductive Control where
  /-- at the head of the `while (serverRunning)` loop of `handleClient` -/
  | clientLoop
  /-- at the head of the `while (true)` loop of `handlePutCommand` -/
  | putLoop (filename : Bytes) (totalBytes : Nat)
  /-- after `disconnectClient(clientSocket)`: the thread has ended -/
  | disconnected
deriving DecidableEq

/-- State of one session thread and of the directory it works on. -/
structure State where
  session : Session
  control : Control
  store : FileStore
deriving DecidableEq

/-- Result of one loop iteration: the `sendMessage` calls, in order, and the
state reached. -/
structure Turn where
  sends : List Bytes
  next : State
deriving DecidableEq

/-- The value of one `recv(clientSocket, buffer, DEFAULT_BUFLEN - 1, 0)`. -/
inductive RecvResult where
  /-- `bytesRead = data.length ≥ 0` and the bytes stored in `buffer`;
  `bytesRead = 0` is what a socket closed by the peer returns -/
  | bytes (data : Bytes)
  /-- `-1` with `errno == EWOULDBLOCK` -/
  | wouldBlock
  /-- `-1` with another `errno` -/
  | failed
deriving DecidableEq

/-- What one loop iteration observes. -/
inductive Event where
  /-- the loop condition `serverRunning` of `handleClient` is read as false -/
  | serverStopped
  /-- the value of the iteration's `recv` -/
  | recv (r : RecvResult)
deriving DecidableEq

/-- The credential table as `credentials.find` sees it. -/
abbrev Credentials := Bytes → Option Bytes

/-! ## Response lines -/

def welcomeLine : Bytes := "Welcome to Sahar's file server.\n".toList
def goodbyeLine : Bytes := "Goodbye!\n".toList
def pongLine : Bytes := "PONG\n".toList
def invalidCommandLine : Bytes := "400 Invalid command.\n".toList
def invalidFormatLine : Bytes := "400 Invalid format. Use: USER <username> <password>\n".toList
def userNotFoundLine : Bytes := "400 User not found. Please try with another user.\n".toList
def unauthorizedLine : Bytes :=
  "401 Unauthorized access. Please login first using USER <username> <password>.\n".toList
def tooManyAttemptsLine : Bytes :=
  "ERROR: Too many failed login attempts. Closing connection.\n".toList
def internalErrorLine : Bytes := "500 Internal server error.\n".toList
def canNotSaveLine : Bytes := "400 File can not save on server side.\n".toList
def cannotSaveLine : Bytes := "400 File cannot save on server side.\n".toList

def grantedLine (username : Bytes) : Bytes :=
  "200 User ".toList ++ username ++ " granted to access.\n".toList

def savedLine (totalBytes : Nat) (filename : Bytes) : Bytes :=
  "200 ".toList ++ decimal totalBytes ++ " Byte ".toList ++ filename ++
    " file retrieved by server and was saved.\n".toList

def usageLine (cmd : String) : Bytes :=
  "400 Invalid command. Use: ".toList ++ cmd.toList ++ " <filename>\n".toList

def getNotFoundLine (filename : Bytes) : Bytes :=
  "404 File ".toList ++ filename ++ " not found.\n".toList

def delNotFoundLine (filename : Bytes) : Bytes :=
  "404 File ".toList ++ filename ++ " not on the server.\n".toList

def deletedLine (filename : Bytes) : Bytes :=
  "200 File ".toList ++ filename ++ " deleted.\n".toList

/-! ## Literals the code compares with -/

/-- The literal `"QUIT\n"`. -/
def quitMessage : Bytes := "QUIT\n".toList

/-- The literal `"PING\n"`. -/
def pingMessage : Bytes := "PING\n".toList

/-- The literal `"LIST\n"`. -/
def listMessage : Bytes := "LIST\n".toList

/-- The literal `"GET"`. -/
def getKeyword : Bytes := "GET".toList

/-- The literal `"PUT"`. -/
def putKeyword : Bytes := "PUT".toList

/-- The literal `"DEL"`. -/
def delKeyword : Bytes := "DEL".toList

/-- The literal `"USER"`. -/
def userKeyword : Bytes := "USER".toList

/-- The literal `".\n"` that ends a payload. -/
def terminator : Bytes := ".\n".toList

/-! ## Command handlers -/

/-- `handleListCommand`: one line `name - size` per regular file of the
directory, then the line `.`; the whole is one `sendMessage`. -/
def handleListCommand (fs : FileStore) : List Bytes :=
  [((fs.entries.filter (fun e => e.regular)).map
      (fun e => e.name ++ " - ".toList ++ decimal e.content.length ++ "\n".toList)).flatten
    ++ ".\n".toList]

/-- The text of `response` in `handleGetCommand` after
`response << file.rdbuf(); response << endl << "." << endl;`.
`basic_ostream::operator<<(basic_streambuf*)` calls `setstate(failbit)` when it
inserts no character (C++ standard, [ostream.inserters]), and `endl` and
`<< "."` on a stream that is not `good()` insert nothing: for an empty file
`response.str()` is empty, the trailer included. -/
def getResponse (content : Bytes) : Bytes :=
  if content = [] then [] else content ++ "\n.\n".toList

/-- `handleGetCommand`. -/
def handleGetCommand (fs : FileStore) (message : Bytes) : List Bytes :=
  let filename := secondToken message
  if filename = [] then [usageLine "GET"]
  else if !fs.fileExists filename then [getNotFoundLine filename]
  else if filename ∈ fs.unreadable then [internalErrorLine]
  else [getResponse (fs.read filename)]

/-- `handleDelCommand`: the reply and the directory afterwards. -/
def handleDelCommand (fs : FileStore) (message : Bytes) : List Bytes × FileStore :=
  let filename := secondToken message
  if filename = [] then ([usageLine "DEL"], fs)
  else if !fs.fileExists filename then ([delNotFoundLine filename], fs)
  else if filename ∈ fs.undeletable then ([internalErrorLine], fs)
  else ([deletedLine filename], fs.delete filename)

/-- `handlePutCommand` up to its receive loop: either it returns to
`handleClient` after a `400` line, or the target is opened (truncated) and the
thread stands at the head of the payload loop with `totalBytes = 0`. -/
def handlePutCommand (fs : FileStore) (message : Bytes) : List Bytes × Control × FileStore :=
  let filename := secondToken message
  if filename = [] then ([usageLine "PUT"], Control.clientLoop, fs)
  else if filename ∈ fs.unwritable then ([canNotSaveLine], Control.clientLoop, fs)
  else ([], Control.putLoop filename 0, fs.truncate filename)

/-- One iteration of the `while (true)` loop of `handlePutCommand`.  The value
of `bytesRead` is tested against `-1` only; every other read, a read of 0 bytes
included, becomes `string data(buffer, bytesRead)`, which ends the loop when it
equals `".\n"` and is written to the file otherwise. -/
def handlePutRecv (s : Session) (fs : FileStore) (filename : Bytes) (totalBytes : Nat)
    (r : RecvResult) : Turn :=
  match r with
  | RecvResult.wouldBlock =>
      { sends := [], next := { session := s, control := Control.putLoop filename totalBytes, store := fs } }
  | RecvResult.failed =>
      { sends := [cannotSaveLine], next := { session := s, control := Control.clientLoop, store := fs } }
  | RecvResult.bytes data =>
      if data = terminator then
        { sends := [savedLine totalBytes filename],
          next := { session := s, control := Control.clientLoop, store := fs } }
      else
        { sends := [],
          next := { session := s, control := Control.putLoop filename (totalBytes + data.length),
                    store := fs.append filename data } }

/-- The branch `if (isAuthenticated)` of the loop body of `handleClient`: the
chain of tests on `toUpper(message)` and `toUpper(message.substr(0, 3))`. -/
def authenticatedBranch (s : Session) (fs : FileStore) (message : Bytes) : Turn :=
  if toUpper message = pingMessage then
    { sends := [pongLine], next := { session := s, control := Control.clientLoop, store := fs } }
  else if toUpper message = listMessage then
    { sends := handleListCommand fs,
      next := { session := s, control := Control.clientLoop, store := fs } }
  else if toUpper (message.take 3) = getKeyword then
    { sends := handleGetCommand fs message,
      next := { session := s, control := Control.clientLoop, store := fs } }
  else if toUpper (message.take 3) = putKeyword then
    { sends := (handlePutCommand fs message).1,
      next := { session := s, control := (handlePutCommand fs message).2.1,
                store := (handlePutCommand fs message).2.2 } }
  else if toUpper (message.take 3) = delKeyword then
    { sends := (handleDelCommand fs message).1,
      next := { session := s, control := Control.clientLoop,
                store := (handleDelCommand fs message).2 } }
  else
    { sends := [invalidCommandLine],
      next := { session := s, control := Control.clientLoop, store := fs } }

/-- The `else` branch (not authenticated) of the loop body of `handleClient`
up to the test on `failedAttempts`: the tokens `command`, `username`,
`password` of the message, the reply sent and the session locals afterwards. -/
def loginReply (credentials : Credentials) (s : Session) (message : Bytes) :
    List Bytes × Session :=
  if firstToken message = userKeyword then
    if secondToken message = [] ∨ thirdToken message = [] then ([invalidFormatLine], s)
    else if credentials (secondToken message) = some (thirdToken message) then
      ([grantedLine (secondToken message)],
        { s with isAuthenticated := true, loggedInUser := secondToken message })
    else
      ([userNotFoundLine], { s with failedAttempts := s.failedAttempts + 1 })
  else ([unauthorizedLine], s)

/-- The `else` branch (not authenticated) of the loop body of `handleClient`,
with its closing test `if (failedAttempts >= 3)`. -/
def loginBranch (credentials : Credentials) (s : Session) (fs : FileStore)
    (message : Bytes) : Turn :=
  if (loginReply credentials s message).2.failedAttempts ≥ 3 then
    { sends := (loginReply credentials s message).1 ++ [tooManyAttemptsLine],
      next := { session := (loginReply credentials s message).2,
                control := Control.disconnected, store := fs } }
  else
    { sends := (loginReply credentials s message).1,
      next := { session := (loginReply credentials s message).2,
                control := Control.clientLoop, store := fs } }

/-- The body of the loop of `handleClient` once `message` has been built:
from `if (message == "QUIT\n")` to the end of the iteration. -/
def handleMessage (credentials : Credentials) (s : Session) (fs : FileStore)
    (message : Bytes) : Turn :=
  if message = quitMessage then
    { sends := [goodbyeLine], next := { session := s, control := Control.disconnected, store := fs } }
  else if s.isAuthenticated then authenticatedBranch s fs message
  else loginBranch credentials s fs message

/-- One iteration of the loop of `handleClient`: the loop condition, `recv`,
the tests on `bytesRead`, then the body. -/
def handleClientRecv (credentials : Credentials) (s : Session) (fs : FileStore)
    (e : Event) : Turn :=
  match e with
  | Event.serverStopped =>
      { sends := [], next := { session := s, control := Control.disconnected, store := fs } }
  | Event.recv (RecvResult.bytes data) =>
      if data.length = 0 then
        { sends := [], next := { session := s, control := Control.disconnected, store := fs } }
      else handleMessage credentials s fs (cString data)
  | Event.recv RecvResult.wouldBlock =>
      { sends := [], next := { session := s, control := Control.clientLoop, store := fs } }
  | Event.recv RecvResult.failed =>
      { sends := [], next := { session := s, control := Control.disconnected, store := fs } }

/-- One step of the session thread.  The payload loop of `handlePutCommand`
never reads `serverRunning`; a thread that has ended does nothing. -/
def step (credentials : Credentials) (st : State) (e : Event) : Turn :=
  match st.control with
  | Control.clientLoop => handleClientRecv credentials st.session st.store e
  | Control.putLoop filename totalBytes =>
      match e with
      | Event.recv r => handlePutRecv st.session st.store filename totalBytes r
      | Event.serverStopped => { sends := [], next := st }
  | Control.disconnected => { sends := [], next := st }

/-- The session thread run over a sequence of events: everything sent, and the
state reached. -/
def run (credentials : Credentials) (st : State) : List Event → Turn
  | [] => { sends := [], next := st }
  | e :: es =>
      let t := step credentials st e
      let r := run credentials t.next es
      { sends := t.sends ++ r.sends, next := r.next }

/-- The state in which `handleClient` reaches its loop for the first time. -/
def initialState (fs : FileStore) : State :=
  { session := { isAuthenticated := false, loggedInUser := [], failedAttempts := 0 },
    control := Control.clientLoop, store := fs }

/-- `handleClient`: the greeting, then the loop. -/
def handleClient (credentials : Credentials) (fs : FileStore) (events : List Event) : Turn :=
  let r := run credentials (initialState fs) events
  { sends := welcomeLine :: r.sends, next := r.next }

/-- The bytes put on the wire by a list of `sendMessage` calls. -/
def wire (sends : List Bytes) : Bytes :=
  sends.flatten

/-! ## Supervisor -/

/-- `MAX_CLIENTS`. -/
def MAX_CLIENTS : Nat := 100

/-- `SIGINT`. -/
def SIGINT : Int := 2

/-- The globals `clientSockets` and `serverRunning`, and the local
`clientThreads` of `main` (each thread is named by the socket it serves). -/
structure Server where
  clientSockets : List Int
  clientThreads : List Int
  serverRunning : Bool
deriving DecidableEq

/-- What `main` does with an accepted connection. -/
inductive Admission where
  /-- the socket is registered and a thread running `handleClient` is started -/
  | started
  /-- the socket is closed, nothing is registered -/
  | closed
deriving DecidableEq

/-- `main` after a successful `accept`: the branch on `clientThreads.size()`. -/
def acceptClient (srv : Server) (clientSocket : Int) : Admission × Server :=
  if srv.clientThreads.length < MAX_CLIENTS then
    (Admission.started,
      { srv with clientSockets := srv.clientSockets ++ [clientSocket],
                 clientThreads := srv.clientThreads ++ [clientSocket] })
  else
    (Admission.closed, srv)

/-- `disconnectClient`: the first occurrence of the socket leaves the registry. -/
def disconnectClient (srv : Server) (clientSocket : Int) : Server :=
  { srv with clientSockets := srv.clientSockets.erase clientSocket }

/-- `signalHandler`. -/
def signalHandler (srv : Server) (signal : Int) : Server :=
  if signal = SIGINT then { srv with clientSockets := [], serverRunning := false }
  else srv

/-- The steps that change the supervisor's state. -/
inductive ServerEvent where
  | accepted (clientSocket : Int)
  | sessionExit (clientSocket : Int)
  | signalled (signal : Int)
deriving DecidableEq

/-- One supervisor step. -/
def serverStep (srv : Server) : ServerEvent → Server
  | ServerEvent.accepted c => (acceptClient srv c).2
  | ServerEvent.sessionExit c => disconnectClient srv c
  | ServerEvent.signalled sig => signalHandler srv sig

/-- The supervisor's state after a history of steps. -/
def serverRun (srv : Server) (history : List ServerEvent) : Server :=
  history.foldl serverStep srv

/-- The supervisor's state when `main` enters its loop. -/
def serverStart : Server :=
  { clientSockets := [], clientThreads := [], serverRunning := true }


/-! ## Vocabulary of the properties -/

/-- A `USER` attempt that the table rejects: the command token is `USER`, both
argument tokens are present, and `credentials.find(username)` does not yield
the password token. -/
def rejectedUser (credentials : Credentials) (message : Bytes) : Prop :=
  firstToken message = userKeyword ∧ secondToken message ≠ [] ∧ thirdToken message ≠ []
    ∧ credentials (secondToken message) ≠ some (thirdToken message)

instance (credentials : Credentials) (message : Bytes) :
    Decidable (rejectedUser credentials message) :=
  inferInstanceAs (Decidable (firstToken message = userKeyword ∧ secondToken message ≠ []
    ∧ thirdToken message ≠ [] ∧ credentials (secondToken message) ≠ some (thirdToken message)))

/-- The bytes a sequence of reads delivers, in order. -/
def payloadOf : List RecvResult → Bytes
  | [] => []
  | RecvResult.bytes data :: rs => data ++ payloadOf rs
  | _ :: rs => payloadOf rs

/-- The response begins with one of the status codes `200`, `400`, `404`, `500`. -/
def beginsWithStatus (response : Bytes) : Prop :=
  "200".toList <+: response ∨ "400".toList <+: response ∨ "404".toList <+: response
    ∨ "500".toList <+: response

instance (response : Bytes) : Decidable (beginsWithStatus response) :=
  inferInstanceAs (Decidable ("200".toList <+: response ∨ "400".toList <+: response
    ∨ "404".toList <+: response ∨ "500".toList <+: response))

/-- A token as it stands in a line: not empty, without whitespace and without NUL. -/
def plainToken (t : Bytes) : Prop :=
  t ≠ [] ∧ (∀ c ∈ t, isspace c = false) ∧ (∀ c ∈ t, c.toNat ≠ 0)

/-- The line `USER <u> <p>\n` as a client sends it. -/
def userLine (u p : Bytes) : Bytes :=
  "USER".toList ++ Char.ofNat 32 :: (u ++ Char.ofNat 32 :: (p ++ [Char.ofNat 10]))

/-- What the supervisor maintains: the registry is no longer than the vector of
threads, which holds at most `MAX_CLIENTS` threads. -/
def Server.bounded (srv : Server) : Prop :=
  srv.clientSockets.length ≤ srv.clientThreads.length ∧ srv.clientThreads.length ≤ MAX_CLIENTS

/-! ## Concrete inputs -/

/-- An empty directory in which every operation succeeds. -/
def emptyStore : FileStore :=
  { entries := [], unreadable := [], unwritable := [], undeletable := [] }

/-- A directory holding the regular file `hello.txt` with content `hi\n`. -/
def helloStore : FileStore :=
  { entries := [{ name := "hello.txt".toList, regular := true, content := "hi\n".toList }],
    unreadable := [], unwritable := [], undeletable := [] }

/-- The table holding the single record `alice:wonder`. -/
def aliceTable : Credentials :=
  fun u => if u = "alice".toList then some "wonder".toList else none

/-- The session locals after a login as `alice`. -/
def aliceSession : Session :=
  { isAuthenticated := true, loggedInUser := "alice".toList, failedAttempts := 0 }

/-- A read that delivers the bytes of `text`. -/
def received (text : String) : Event :=
  Event.recv (RecvResult.bytes text.toList)

/-- A session at the head of the command loop. -/
def commandState (isAuthenticated : Bool) (failedAttempts : Nat) (fs : FileStore) : State :=
  { session := { isAuthenticated := isAuthenticated, loggedInUser := [],
                 failedAttempts := failedAttempts },
    control := Control.clientLoop, store := fs }

/-- A session at the head of the payload loop of `handlePutCommand`. -/
def payloadState (s : Session) (filename : Bytes) (totalBytes : Nat) (fs : FileStore) : State :=
  { session := s, control := Control.putLoop filename totalBytes, store := fs }

/-- One hundred accepted connections, on the sockets 4 to 103. -/
def hundredAccepts : List ServerEvent :=
  (List.range 100).map (fun i => ServerEvent.accepted (Int.ofNat i + 4))

/-! ## Stepping lemmas -/

theorem step_clientLoop_bytes (credentials : Credentials) (st : State) (data : Bytes)
    (hctl : st.control = Control.clientLoop) (hdata : data ≠ []) :
    step credentials st (Event.recv (RecvResult.bytes data))
      = handleMessage credentials st.session st.store (cString data) := by
  have hlen : data.length ≠ 0 := by
    intro h
    exact hdata (List.length_eq_zero.mp h)
  simp [step, hctl, handleClientRecv, hlen]

theorem step_putLoop_recv (credentials : Credentials) (st : State) (filename : Bytes)
    (totalBytes : Nat) (r : RecvResult) (hctl : st.control = Control.putLoop filename totalBytes) :
    step credentials st (Event.recv r)
      = handlePutRecv st.session st.store filename totalBytes r := by
  simp [step, hctl]

theorem state_eta (st : State) (c : Control) (hctl : st.control = c) :
    ({ session := st.session, control := c, store := st.store } : State) = st := by
  cases st; cases hctl; rfl

theorem handleMessage_unauthenticated (credentials : Credentials) (s : Session) (fs : FileStore)
    (message : Bytes) (hquit : message ≠ quitMessage) (hauth : s.isAuthenticated = false) :
    handleMessage credentials s fs message = loginBranch credentials s fs message := by
  simp [handleMessage, hquit, hauth]

theorem handleMessage_authenticated (credentials : Credentials) (s : Session) (fs : FileStore)
    (message : Bytes) (hquit : message ≠ quitMessage) (hauth : s.isAuthenticated = true) :
    handleMessage credentials s fs message = authenticatedBranch s fs message := by
  simp [handleMessage, hquit, hauth]

theorem loginReply_other (credentials : Credentials) (s : Session) (message : Bytes)
    (huser : firstToken message ≠ userKeyword) :
    loginReply credentials s message = ([unauthorizedLine], s) := by
  simp [loginReply, huser]

theorem loginReply_rejected (credentials : Credentials) (s : Session) (message : Bytes)
    (h : rejectedUser credentials message) :
    loginReply credentials s message
      = ([userNotFoundLine], { s with failedAttempts := s.failedAttempts + 1 }) := by
  obtain ⟨hu, h2, h3, hc⟩ := h
  simp [loginReply, hu, h2, h3, hc]

theorem loginReply_granted (credentials : Credentials) (s : Session) (message : Bytes)
    (hu : firstToken message = userKeyword) (h2 : secondToken message ≠ [])
    (h3 : thirdToken message ≠ [])
    (hc : credentials (secondToken message) = some (thirdToken message)) :
    loginReply credentials s message
      = ([grantedLine (secondToken message)],
          { s with isAuthenticated := true, loggedInUser := secondToken message }) := by
  simp [loginReply, hu, h2, h3, hc]

theorem loginReply_failedAttempts (credentials : Credentials) (s : Session) (message : Bytes) :
    (loginReply credentials s message).2.failedAttempts
      = if rejectedUser credentials message then s.failedAttempts + 1 else s.failedAttempts := by
  by_cases h : rejectedUser credentials message
  · rw [loginReply_rejected credentials s message h, if_pos h]
  · rw [if_neg h]
    unfold rejectedUser at h
    unfold loginReply
    split_ifs with h1 h2 h3
    · rfl
    · rfl
    · exfalso
      apply h
      refine ⟨h1, ?_, ?_, h3⟩
      · intro hx; exact h2 (Or.inl hx)
      · intro hx; exact h2 (Or.inr hx)
    · rfl

theorem authenticatedBranch_session (s : Session) (fs : FileStore) (message : Bytes) :
    (authenticatedBranch s fs message).next.session = s := by
  unfold authenticatedBranch
  split_ifs <;> rfl

theorem handlePutCommand_live (fs : FileStore) (message : Bytes) :
    (handlePutCommand fs message).2.1 ≠ Control.disconnected := by
  unfold handlePutCommand
  simp only
  split_ifs <;> simp

theorem authenticatedBranch_live (s : Session) (fs : FileStore) (message : Bytes) :
    (authenticatedBranch s fs message).next.control ≠ Control.disconnected := by
  unfold authenticatedBranch
  split_ifs
  any_goals simp
  exact handlePutCommand_live fs message

theorem handlePutRecv_session (s : Session) (fs : FileStore) (filename : Bytes) (totalBytes : Nat)
    (r : RecvResult) : (handlePutRecv s fs filename totalBytes r).next.session = s := by
  cases r with
  | bytes data =>
      unfold handlePutRecv
      simp only
      split_ifs <;> rfl
  | wouldBlock => rfl
  | failed => rfl

theorem handleMessage_failedAttempts (credentials : Credentials) (s : Session) (fs : FileStore)
    (message : Bytes) :
    (handleMessage credentials s fs message).next.session.failedAttempts
      = if s.isAuthenticated = false ∧ message ≠ quitMessage ∧ rejectedUser credentials message
        then s.failedAttempts + 1 else s.failedAttempts := by
  by_cases hq : message = quitMessage
  · simp [handleMessage, hq]
  · cases ha : s.isAuthenticated
    · rw [handleMessage_unauthenticated credentials s fs message hq ha]
      have hfa := loginReply_failedAttempts credentials s message
      unfold loginBranch
      split_ifs <;> simp_all
    · rw [handleMessage_authenticated credentials s fs message hq ha,
        authenticatedBranch_session]
      simp

/-- A step changes `failedAttempts` only when it is a rejected `USER` attempt
of an unauthenticated session, and then by one. -/
theorem step_failedAttempts (credentials : Credentials) (st : State) (e : Event)
    (hchange : (step credentials st e).next.session.failedAttempts ≠ st.session.failedAttempts) :
    st.control = Control.clientLoop ∧ st.session.isAuthenticated = false
    ∧ (∃ data, e = Event.recv (RecvResult.bytes data) ∧ data ≠ []
        ∧ cString data ≠ quitMessage ∧ rejectedUser credentials (cString data))
    ∧ (step credentials st e).next.session.failedAttempts = st.session.failedAttempts + 1 := by
  cases hctl : st.control with
  | disconnected => simp [step, hctl] at hchange
  | putLoop filename totalBytes =>
      cases e with
      | serverStopped => simp [step, hctl] at hchange
      | recv r =>
          rw [step_putLoop_recv credentials st filename totalBytes r hctl,
            handlePutRecv_session] at hchange
          exact absurd rfl hchange
  | clientLoop =>
      cases e with
      | serverStopped => simp [step, hctl, handleClientRecv] at hchange
      | recv r =>
          cases r with
          | wouldBlock => simp [step, hctl, handleClientRecv] at hchange
          | failed => simp [step, hctl, handleClientRecv] at hchange
          | bytes data =>
              by_cases hdata : data = []
              · simp [step, hctl, handleClientRecv, hdata] at hchange
              · rw [step_clientLoop_bytes credentials st data hctl hdata] at hchange ⊢
                rw [handleMessage_failedAttempts] at hchange ⊢
                split_ifs at hchange ⊢ with h
                · exact ⟨rfl, h.1, ⟨data, rfl, hdata, h.2.1, h.2.2⟩, rfl⟩
                · exact absurd rfl hchange

/-- A step keeps `failedAttempts < 3` in every state whose thread has not ended. -/
theorem step_live_bound (credentials : Credentials) (st : State) (e : Event)
    (hinv : st.control ≠ Control.disconnected → st.session.failedAttempts < 3)
    (hlive : (step credentials st e).next.control ≠ Control.disconnected) :
    (step credentials st e).next.session.failedAttempts < 3 := by
  have hst : st.control ≠ Control.disconnected := by
    intro hctl
    apply hlive
    simp [step, hctl]
  by_cases hsame :
      (step credentials st e).next.session.failedAttempts = st.session.failedAttempts
  · rw [hsame]; exact hinv hst
  · obtain ⟨hctl, hauth, ⟨data, he, hdata, hq, hrej⟩, hplus⟩ :=
      step_failedAttempts credentials st e hsame
    by_contra hge
    apply hlive
    subst he
    rw [step_clientLoop_bytes credentials st data hctl hdata,
      handleMessage_unauthenticated credentials _ _ _ hq hauth]
    rw [step_clientLoop_bytes credentials st data hctl hdata,
      handleMessage_unauthenticated credentials _ _ _ hq hauth] at hplus hge
    unfold loginBranch at hplus hge ⊢
    split_ifs at hplus hge ⊢ with h3
    · rfl
    · exact absurd hge (by simpa using h3)

theorem run_nil (credentials : Credentials) (st : State) :
    run credentials st [] = { sends := [], next := st } := rfl

theorem run_cons (credentials : Credentials) (st : State) (e : Event) (es : List Event) :
    run credentials st (e :: es)
      = { sends := (step credentials st e).sends ++ (run credentials (step credentials st e).next es).sends,
          next := (run credentials (step credentials st e).next es).next } := rfl

theorem run_live_bound (credentials : Credentials) (events : List Event) :
    ∀ st : State, (st.control ≠ Control.disconnected → st.session.failedAttempts < 3) →
      (run credentials st events).next.control ≠ Control.disconnected →
      (run credentials st events).next.session.failedAttempts < 3 := by
  induction events with
  | nil => intro st hinv hlive; exact hinv hlive
  | cons e es ih =>
      intro st hinv hlive
      rw [run_cons] at hlive ⊢
      exact ih _ (step_live_bound credentials st e hinv) hlive

/-! ## Tokens of a well-formed line -/

theorem extract_skip (d : Char) (stream : Bytes) (hd : isspace d = true) :
    extract (d :: stream) = extract stream := by
  unfold extract
  rw [List.dropWhile_cons_of_pos hd]

theorem extract_token (t rest : Bytes) (d : Char) (hne : t ≠ [])
    (ht : ∀ c ∈ t, isspace c = false) (hd : isspace d = true) :
    extract (t ++ d :: rest) = (t, d :: rest) := by
  unfold extract
  cases t with
  | nil => exact absurd rfl hne
  | cons c cs =>
      have hc : ¬ isspace c = true := by
        rw [ht c (List.mem_cons_self c cs)]; simp
      rw [List.cons_append, List.dropWhile_cons_of_neg hc, List.span_eq_take_drop,
        ← List.cons_append]
      have hall : ∀ a ∈ c :: cs, (!isspace a) = true := by
        intro a ha
        rw [ht a ha]; rfl
      rw [List.takeWhile_append_of_pos hall, List.dropWhile_append_of_pos hall]
      simp [List.takeWhile_cons, List.dropWhile_cons, hd]

theorem cString_of_no_nul (buffer : Bytes) (h : ∀ c ∈ buffer, c.toNat ≠ 0) :
    cString buffer = buffer := by
  unfold cString
  rw [List.takeWhile_eq_self_iff]
  intro c hc
  simpa using h c hc

/-- The tokens that `iss >> command >> username >> password` reads from the
line `USER <u> <p>\n`, and the message `string(buffer)` built from it. -/
theorem userLine_tokens (u p : Bytes) (hu : plainToken u) (hp : plainToken p) :
    cString (userLine u p) = userLine u p
    ∧ firstToken (userLine u p) = userKeyword
    ∧ secondToken (userLine u p) = u
    ∧ thirdToken (userLine u p) = p := by
  have hspace : isspace (Char.ofNat 32) = true := by decide
  have hnewline : isspace (Char.ofNat 10) = true := by decide
  have h1 : extract (userLine u p)
      = (userKeyword, Char.ofNat 32 :: (u ++ Char.ofNat 32 :: (p ++ [Char.ofNat 10]))) := by
    unfold userLine
    exact extract_token _ _ _ (by decide) (by decide) hspace
  have h2 : extract (Char.ofNat 32 :: (u ++ Char.ofNat 32 :: (p ++ [Char.ofNat 10])))
      = (u, Char.ofNat 32 :: (p ++ [Char.ofNat 10])) := by
    rw [extract_skip _ _ hspace]
    exact extract_token _ _ _ hu.1 hu.2.1 hspace
  have h3 : extract (Char.ofNat 32 :: (p ++ [Char.ofNat 10])) = (p, [Char.ofNat 10]) := by
    rw [extract_skip _ _ hspace]
    exact extract_token _ _ _ hp.1 hp.2.1 hnewline
  refine ⟨?_, ?_, ?_, ?_⟩
  · apply cString_of_no_nul
    intro c hc
    unfold userLine at hc
    simp only [List.mem_append, List.mem_cons, List.mem_singleton] at hc
    rcases hc with hc | hc | hc | hc | hc | hc
    · revert c
      decide
    · rw [hc]; decide
    · exact hu.2.2 c hc
    · rw [hc]; decide
    · exact hp.2.2 c hc
    · rcases hc with hc | hc
      · rw [hc]; decide
      · simp at hc
  · unfold firstToken
    rw [h1]
  · unfold secondToken
    rw [h1, h2]
  · unfold thirdToken
    rw [h1, h2, h3]

theorem firstToken_quitMessage : firstToken quitMessage ≠ userKeyword := by decide

theorem wire_cons_unauthorized (rest : List Bytes) :
    "401".toList <+: wire (unauthorizedLine :: rest) := by
  refine ⟨unauthorizedLine.drop 3 ++ rest.flatten, ?_⟩
  simp [wire, unauthorizedLine]

/-! ## Authentication -/

/-- C1: in an unauthenticated session, a received message that is neither
`QUIT\n` nor a `USER` command is answered with the `401` line first, the
session record and the directory are untouched (no handler ran), and in a live
session (fewer than 3 failed attempts) that line is the whole reply and the
session stays where it was. -/
theorem unauthenticated_command_gets_401 (credentials : Credentials) (st : State)
    (data : Bytes) (hctl : st.control = Control.clientLoop)
    (hauth : st.session.isAuthenticated = false) (hdata : data ≠ [])
    (hquit : cString data ≠ quitMessage)
    (huser : firstToken (cString data) ≠ userKeyword) :
    "401".toList <+: wire (step credentials st (Event.recv (RecvResult.bytes data))).sends
    ∧ (∃ rest, (step credentials st (Event.recv (RecvResult.bytes data))).sends
          = unauthorizedLine :: rest)
    ∧ (step credentials st (Event.recv (RecvResult.bytes data))).next.session = st.session
    ∧ (step credentials st (Event.recv (RecvResult.bytes data))).next.store = st.store
    ∧ (st.session.failedAttempts < 3 →
        step credentials st (Event.recv (RecvResult.bytes data))
          = { sends := [unauthorizedLine], next := st }) := by
  rw [step_clientLoop_bytes credentials st data hctl hdata,
    handleMessage_unauthenticated credentials _ _ _ hquit hauth]
  unfold loginBranch
  rw [loginReply_other credentials st.session (cString data) huser]
  split_ifs with hfa
  · refine ⟨wire_cons_unauthorized _, ⟨_, rfl⟩, rfl, rfl, ?_⟩
    intro h
    exact absurd h (by simpa using hfa)
  · refine ⟨wire_cons_unauthorized _, ⟨_, rfl⟩, rfl, rfl, ?_⟩
    intro _
    rw [state_eta st Control.clientLoop hctl]

theorem unauthenticated_command_gets_401_witness :
    "401".toList <+: wire (step aliceTable (commandState false 2 emptyStore) (received "LIST\n")).sends
    ∧ (step aliceTable (commandState false 2 emptyStore) (received "LIST\n"))
        = { sends := [unauthorizedLine], next := commandState false 2 emptyStore } :=
  have h := unauthenticated_command_gets_401 aliceTable (commandState false 2 emptyStore)
    "LIST\n".toList rfl rfl (by decide) (by decide) (by decide)
  ⟨h.1, h.2.2.2.2 (by decide)⟩

/-- C2 as stated fails: the third rejected `USER` attempt of a session is not
answered by the `400 User not found` line alone; the lockout line follows it
and the thread ends. -/
theorem third_rejected_user_reply_is_not_400_alone :
    (step aliceTable (commandState false 2 emptyStore) (received "USER bob wrong\n")).sends
        ≠ [userNotFoundLine]
    ∧ wire (step aliceTable (commandState false 2 emptyStore) (received "USER bob wrong\n")).sends
        = userNotFoundLine ++ tooManyAttemptsLine
    ∧ (step aliceTable (commandState false 2 emptyStore) (received "USER bob wrong\n")).next.control
        = Control.disconnected := by
  decide

/-- C2 (amended): for every credential table and every message whose tokens
are `USER`, a username `u` and a password `p`, received by a live
unauthenticated session, the session becomes authenticated exactly when the
table maps `u` to `p` (literal comparison); then the reply is the `200 User u
granted` line, the user is `u` and the counter is unchanged.  Otherwise the
`400 User not found` line is sent, the session is not authenticated and
`failedAttempts` grows by one; when that makes it 3 the lockout line is sent
after the `400` line and the thread ends, else the session stays in the loop. -/
theorem user_login_outcome (credentials : Credentials) (st : State) (data : Bytes)
    (hctl : st.control = Control.clientLoop) (hauth : st.session.isAuthenticated = false)
    (hlive : st.session.failedAttempts < 3) (hdata : data ≠ [])
    (hu : firstToken (cString data) = userKeyword)
    (h2 : secondToken (cString data) ≠ []) (h3 : thirdToken (cString data) ≠ []) :
    ((step credentials st (Event.recv (RecvResult.bytes data))).next.session.isAuthenticated = true
        ↔ credentials (secondToken (cString data)) = some (thirdToken (cString data)))
    ∧ (credentials (secondToken (cString data)) = some (thirdToken (cString data)) →
        step credentials st (Event.recv (RecvResult.bytes data))
          = { sends := [grantedLine (secondToken (cString data))],
              next := { session := { isAuthenticated := true,
                                     loggedInUser := secondToken (cString data),
                                     failedAttempts := st.session.failedAttempts },
                        control := Control.clientLoop, store := st.store } })
    ∧ (credentials (secondToken (cString data)) ≠ some (thirdToken (cString data)) →
        step credentials st (Event.recv (RecvResult.bytes data))
          = { sends := userNotFoundLine ::
                (if st.session.failedAttempts + 1 ≥ 3 then [tooManyAttemptsLine] else []),
              next := { session := { isAuthenticated := false,
                                     loggedInUser := st.session.loggedInUser,
                                     failedAttempts := st.session.failedAttempts + 1 },
                        control := if st.session.failedAttempts + 1 ≥ 3
                          then Control.disconnected else Control.clientLoop,
                        store := st.store } }) := by
  have hq : cString data ≠ quitMessage := by
    intro h
    rw [h] at hu
    exact firstToken_quitMessage hu
  have hgrant : credentials (secondToken (cString data)) = some (thirdToken (cString data)) →
      step credentials st (Event.recv (RecvResult.bytes data))
        = { sends := [grantedLine (secondToken (cString data))],
            next := { session := { isAuthenticated := true,
                                   loggedInUser := secondToken (cString data),
                                   failedAttempts := st.session.failedAttempts },
                      control := Control.clientLoop, store := st.store } } := by
    intro hc
    rw [step_clientLoop_bytes credentials st data hctl hdata,
      handleMessage_unauthenticated credentials _ _ _ hq hauth]
    unfold loginBranch
    rw [loginReply_granted credentials st.session (cString data) hu h2 h3 hc]
    have hnot : ¬ st.session.failedAttempts ≥ 3 := by omega
    simp [hnot]
  have hreject : credentials (secondToken (cString data)) ≠ some (thirdToken (cString data)) →
      step credentials st (Event.recv (RecvResult.bytes data))
        = { sends := userNotFoundLine ::
              (if st.session.failedAttempts + 1 ≥ 3 then [tooManyAttemptsLine] else []),
            next := { session := { isAuthenticated := false,
                                   loggedInUser := st.session.loggedInUser,
                                   failedAttempts := st.session.failedAttempts + 1 },
                      control := if st.session.failedAttempts + 1 ≥ 3
                        then Control.disconnected else Control.clientLoop,
                      store := st.store } } := by
    intro hc
    rw [step_clientLoop_bytes credentials st data hctl hdata,
      handleMessage_unauthenticated credentials _ _ _ hq hauth]
    unfold loginBranch
    rw [loginReply_rejected credentials st.session (cString data) ⟨hu, h2, h3, hc⟩]
    split_ifs with hfa
    · simp [hauth]
    · simp [hauth]
  refine ⟨?_, hgrant, hreject⟩
  constructor
  · intro hA
    by_contra hc
    rw [hreject hc] at hA
    simp at hA
  · intro hc
    rw [hgrant hc]

theorem user_login_outcome_witness :
    ((step aliceTable (commandState false 1 emptyStore)
        (received "USER alice wonder\n")).next.session.isAuthenticated = true
      ↔ aliceTable "alice".toList = some "wonder".toList)
    ∧ step aliceTable (commandState false 1 emptyStore) (received "USER alice wonder\n")
        = { sends := ["200 User alice granted to access.\n".toList],
            next := { session := { isAuthenticated := true, loggedInUser := "alice".toList,
                                   failedAttempts := 1 },
                      control := Control.clientLoop, store := emptyStore } } :=
  have h := user_login_outcome aliceTable (commandState false 1 emptyStore)
    "USER alice wonder\n".toList rfl rfl (by decide) (by decide) (by decide) (by decide)
    (by decide)
  ⟨h.1, h.2.1 (by decide)⟩

/-- C3: in every state a session thread reaches from its start while it has
not ended, `failedAttempts` is 0, 1 or 2; a step changes `failedAttempts` only
when it is a rejected `USER` attempt of an unauthenticated session (both
arguments present, no match in the table), and then by one; the rejected
attempt made at `failedAttempts = 2` is answered by the `400 User not found`
line followed by the lockout line, and the thread ends in that same step. -/
theorem failed_attempts_stay_below_three (credentials : Credentials) (fs : FileStore)
    (events : List Event) (st : State) (e : Event) (data : Bytes) :
    ((handleClient credentials fs events).next.control ≠ Control.disconnected →
        (handleClient credentials fs events).next.session.failedAttempts < 3)
    ∧ ((step credentials st e).next.session.failedAttempts ≠ st.session.failedAttempts →
        st.control = Control.clientLoop ∧ st.session.isAuthenticated = false
        ∧ (∃ d, e = Event.recv (RecvResult.bytes d) ∧ d ≠ []
            ∧ cString d ≠ quitMessage ∧ rejectedUser credentials (cString d))
        ∧ (step credentials st e).next.session.failedAttempts = st.session.failedAttempts + 1)
    ∧ (st.control = Control.clientLoop → st.session.isAuthenticated = false →
        st.session.failedAttempts = 2 → data ≠ [] →
        rejectedUser credentials (cString data) →
        step credentials st (Event.recv (RecvResult.bytes data))
          = { sends := [userNotFoundLine, tooManyAttemptsLine],
              next := { session := { isAuthenticated := false,
                                     loggedInUser := st.session.loggedInUser,
                                     failedAttempts := 3 },
                        control := Control.disconnected, store := st.store } }) := by
  refine ⟨?_, step_failedAttempts credentials st e, ?_⟩
  · show (run credentials (initialState fs) events).next.control ≠ Control.disconnected →
      (run credentials (initialState fs) events).next.session.failedAttempts < 3
    apply run_live_bound
    intro _
    simp [initialState]
  · intro hctl hauth hfa hdata hrej
    have hq : cString data ≠ quitMessage := by
      intro h
      rw [h] at hrej
      exact firstToken_quitMessage hrej.1
    rw [step_clientLoop_bytes credentials st data hctl hdata,
      handleMessage_unauthenticated credentials _ _ _ hq hauth]
    unfold loginBranch
    rw [loginReply_rejected credentials st.session (cString data) hrej]
    simp [hfa, hauth]

theorem failed_attempts_stay_below_three_witness :
    (handleClient aliceTable emptyStore
        [received "USER bob wrong\n", received "USER\n", received "LIST\n",
         received "USER alice Wonder\n"]).next.session.failedAttempts < 3
    ∧ (commandState false 0 emptyStore).session.isAuthenticated = false
    ∧ (step aliceTable (commandState false 0 emptyStore)
        (received "USER bob wrong\n")).next.session.failedAttempts = 0 + 1
    ∧ step aliceTable (commandState false 2 emptyStore) (received "USER bob wrong\n")
        = { sends := [userNotFoundLine, tooManyAttemptsLine],
            next := { session := { isAuthenticated := false, loggedInUser := [],
                                   failedAttempts := 3 },
                      control := Control.disconnected, store := emptyStore } } :=
  have h := failed_attempts_stay_below_three aliceTable emptyStore
    [received "USER bob wrong\n", received "USER\n", received "LIST\n",
     received "USER alice Wonder\n"]
    (commandState false 2 emptyStore) (received "USER bob wrong\n") "USER bob wrong\n".toList
  have h0 := failed_attempts_stay_below_three aliceTable emptyStore []
    (commandState false 0 emptyStore) (received "USER bob wrong\n") []
  ⟨h.1 (by decide), (h0.2.1 (by decide)).2.1, (h0.2.1 (by decide)).2.2.2,
    h.2.2 rfl rfl rfl (by decide) (by decide)⟩

/-! ## The directory -/

namespace FileStore

theorem append_nil (fs : FileStore) (filename : Bytes) : fs.append filename [] = fs := by
  have hf : (fun e : Entry =>
      if e.name == filename then { e with content := e.content ++ [] } else e) = id := by
    funext e
    cases e
    simp
  unfold append
  rw [hf, List.map_id]

theorem append_append (fs : FileStore) (filename a b : Bytes) :
    (fs.append filename a).append filename b = fs.append filename (a ++ b) := by
  unfold append
  simp only [List.map_map]
  congr 1
  apply List.map_congr_left
  intro e _
  by_cases h : e.name = filename
  · simp [h, List.append_assoc]
  · simp [h]

theorem any_map_rewrite (entries : List Entry) (filename g : Bytes) (f : Bytes → Bytes) :
    (entries.map (fun e => if e.name == filename then { e with content := f e.content } else e)).any
        (fun e => e.name == g)
      = entries.any (fun e => e.name == g) := by
  induction entries with
  | nil => rfl
  | cons e es ih =>
      rw [List.map_cons, List.any_cons, List.any_cons, ih]
      by_cases h : e.name = filename
      · simp [h]
      · simp [h]

theorem find_map_rewrite (entries : List Entry) (filename : Bytes) (f : Bytes → Bytes)
    (hex : entries.any (fun e => e.name == filename) = true) :
    Option.map Entry.content
      ((entries.map (fun e =>
          if e.name == filename then { e with content := f e.content } else e)).find?
        (fun e => e.name == filename))
    = Option.map (fun e => f e.content) (entries.find? (fun e => e.name == filename)) := by
  induction entries with
  | nil => simp at hex
  | cons e es ih =>
      by_cases h : e.name = filename
      · simp [h, List.find?_cons]
      · have hes : es.any (fun e => e.name == filename) = true := by
          simpa [h] using hex
        have hb : (e.name == filename) = false := by simpa using h
        rw [List.map_cons, List.find?_cons, List.find?_cons]
        simp only [hb, Bool.false_eq_true, if_false]
        exact ih hes

theorem find_some_of_exists (entries : List Entry) (filename : Bytes)
    (hex : entries.any (fun e => e.name == filename) = true) :
    ∃ e, entries.find? (fun e => e.name == filename) = some e := by
  cases hfind : entries.find? (fun e => e.name == filename) with
  | some e => exact ⟨e, rfl⟩
  | none =>
      rw [List.find?_eq_none] at hfind
      rw [List.any_eq_true] at hex
      obtain ⟨x, hx, hxn⟩ := hex
      exact absurd hxn (hfind x hx)

theorem find_none_of_not_exists (entries : List Entry) (filename : Bytes)
    (hex : ¬ entries.any (fun e => e.name == filename) = true) :
    entries.find? (fun e => e.name == filename) = none := by
  rw [List.find?_eq_none]
  intro e he hname
  apply hex
  rw [List.any_eq_true]
  exact ⟨e, he, hname⟩

theorem read_eq (fs : FileStore) (filename : Bytes) :
    fs.read filename
      = ((fs.entries.find? (fun e => e.name == filename)).map Entry.content).getD [] := by
  unfold read
  cases fs.entries.find? (fun e => e.name == filename) <;> rfl

theorem fileExists_append (fs : FileStore) (filename data g : Bytes) :
    (fs.append filename data).fileExists g = fs.fileExists g := by
  unfold append fileExists
  exact any_map_rewrite fs.entries filename g (fun c => c ++ data)

theorem read_append (fs : FileStore) (filename data : Bytes)
    (hex : fs.fileExists filename = true) :
    (fs.append filename data).read filename = fs.read filename ++ data := by
  rw [read_eq, read_eq]
  unfold append
  simp only
  rw [find_map_rewrite fs.entries filename (fun c => c ++ data) hex]
  obtain ⟨e, he⟩ := find_some_of_exists fs.entries filename hex
  rw [he]
  rfl

theorem fileExists_truncate (fs : FileStore) (filename : Bytes) :
    (fs.truncate filename).fileExists filename = true := by
  unfold truncate
  by_cases hex : fs.fileExists filename = true
  · rw [if_pos hex]
    unfold fileExists at hex ⊢
    simp only
    rw [any_map_rewrite fs.entries filename filename (fun _ => [])]
    exact hex
  · rw [if_neg hex]
    simp [fileExists]

theorem read_truncate (fs : FileStore) (filename : Bytes) :
    (fs.truncate filename).read filename = [] := by
  rw [read_eq]
  unfold truncate
  by_cases hex : fs.fileExists filename = true
  · rw [if_pos hex]
    simp only
    rw [find_map_rewrite fs.entries filename (fun _ => []) hex]
    obtain ⟨e, he⟩ := find_some_of_exists fs.entries filename hex
    rw [he]
    rfl
  · rw [if_neg hex]
    unfold fileExists at hex
    simp [List.find?_append, find_none_of_not_exists fs.entries filename hex]

end FileStore

/-! ## The payload loop -/

theorem handlePutRecv_data (s : Session) (fs : FileStore) (filename : Bytes) (totalBytes : Nat)
    (data : Bytes) (hdata : data ≠ terminator) :
    handlePutRecv s fs filename totalBytes (RecvResult.bytes data)
      = { sends := [],
          next := payloadState s filename (totalBytes + data.length) (fs.append filename data) } := by
  simp [handlePutRecv, hdata, payloadState]

theorem handlePutRecv_terminator (s : Session) (fs : FileStore) (filename : Bytes)
    (totalBytes : Nat) :
    handlePutRecv s fs filename totalBytes (RecvResult.bytes terminator)
      = { sends := [savedLine totalBytes filename],
          next := { session := s, control := Control.clientLoop, store := fs } } := by
  simp [handlePutRecv]

theorem step_payloadState (credentials : Credentials) (s : Session) (fs : FileStore)
    (filename : Bytes) (totalBytes : Nat) (r : RecvResult) :
    step credentials (payloadState s filename totalBytes fs) (Event.recv r)
      = handlePutRecv s fs filename totalBytes r := by
  simp [step, payloadState]

/-- The payload loop over reads none of which fails or equals `".\n"`, then a
read that equals `".\n"`: every earlier read is written, the count is their
total length, and the `200` line is sent. -/
theorem run_payload (credentials : Credentials) (s : Session) (filename : Bytes)
    (reads : List RecvResult) :
    (∀ r ∈ reads, r ≠ RecvResult.failed ∧ r ≠ RecvResult.bytes terminator) →
    ∀ (totalBytes : Nat) (fs : FileStore),
      run credentials (payloadState s filename totalBytes fs)
          (reads.map Event.recv ++ [Event.recv (RecvResult.bytes terminator)])
        = { sends := [savedLine (totalBytes + (payloadOf reads).length) filename],
            next := { session := s, control := Control.clientLoop,
                      store := fs.append filename (payloadOf reads) } } := by
  induction reads with
  | nil =>
      intro _ totalBytes fs
      simp only [List.map_nil, List.nil_append, run_cons, run_nil, step_payloadState,
        handlePutRecv_terminator, payloadOf, List.length_nil, Nat.add_zero,
        FileStore.append_nil, List.append_nil]
  | cons r rs ih =>
      intro hall totalBytes fs
      have hr := hall r (List.mem_cons_self r rs)
      have hrs : ∀ x ∈ rs, x ≠ RecvResult.failed ∧ x ≠ RecvResult.bytes terminator :=
        fun x hx => hall x (List.mem_cons_of_mem r hx)
      cases r with
      | failed => exact absurd rfl hr.1
      | wouldBlock =>
          have hstep : step credentials (payloadState s filename totalBytes fs)
              (Event.recv RecvResult.wouldBlock)
              = { sends := [], next := payloadState s filename totalBytes fs } := by
            rw [step_payloadState]; rfl
          simp only [List.map_cons, List.cons_append, run_cons, hstep, ih hrs, payloadOf,
            List.nil_append]
      | bytes data =>
          have hd : data ≠ terminator := by
            intro h
            exact hr.2 (by rw [h])
          simp only [List.map_cons, List.cons_append, run_cons, step_payloadState,
            handlePutRecv_data s fs filename totalBytes data hd, ih hrs, payloadOf,
            List.nil_append, List.length_append, FileStore.append_append, Nat.add_assoc]

theorem toUpper_take (n : Nat) (message : Bytes) :
    toUpper (message.take n) = (toUpper message).take n := by
  unfold toUpper
  rw [List.map_take]

theorem authenticatedBranch_put (s : Session) (fs : FileStore) (message : Bytes)
    (hput : toUpper (message.take 3) = putKeyword) :
    authenticatedBranch s fs message
      = { sends := (handlePutCommand fs message).1,
          next := { session := s, control := (handlePutCommand fs message).2.1,
                    store := (handlePutCommand fs message).2.2 } } := by
  have hping : toUpper message ≠ pingMessage := by
    intro h
    rw [toUpper_take, h] at hput
    exact absurd hput (by decide)
  have hlist : toUpper message ≠ listMessage := by
    intro h
    rw [toUpper_take, h] at hput
    exact absurd hput (by decide)
  have hget : toUpper (message.take 3) ≠ getKeyword := by
    rw [hput]; decide
  unfold authenticatedBranch
  rw [if_neg hping, if_neg hlist, if_neg hget, if_pos hput]

theorem authenticatedBranch_get (s : Session) (fs : FileStore) (message : Bytes)
    (hget : toUpper (message.take 3) = getKeyword) :
    authenticatedBranch s fs message
      = { sends := handleGetCommand fs message,
          next := { session := s, control := Control.clientLoop, store := fs } } := by
  have hping : toUpper message ≠ pingMessage := by
    intro h
    rw [toUpper_take, h] at hget
    exact absurd hget (by decide)
  have hlist : toUpper message ≠ listMessage := by
    intro h
    rw [toUpper_take, h] at hget
    exact absurd hget (by decide)
  unfold authenticatedBranch
  rw [if_neg hping, if_neg hlist, if_pos hget]

theorem not_quit_of_keyword (message keyword : Bytes)
    (hkey : toUpper (message.take 3) = keyword) (hne : keyword ≠ "QUI".toList) :
    message ≠ quitMessage := by
  intro h
  rw [h] at hkey
  apply hne
  rw [← hkey]
  decide

theorem handlePutCommand_opened (fs : FileStore) (message : Bytes)
    (hname : secondToken message ≠ []) (hopen : secondToken message ∉ fs.unwritable) :
    handlePutCommand fs message
      = ([], Control.putLoop (secondToken message) 0, fs.truncate (secondToken message)) := by
  simp [handlePutCommand, hname, hopen]

theorem handleGetCommand_found (fs : FileStore) (message : Bytes)
    (hname : secondToken message ≠ [])
    (hex : fs.fileExists (secondToken message) = true)
    (hopen : secondToken message ∉ fs.unreadable) :
    handleGetCommand fs message = [getResponse (fs.read (secondToken message))] := by
  simp [handleGetCommand, hname, hex, hopen]

/-- C5 as stated fails: with the payload `hi\n` and its terminator delivered
in one read `hi\n.\n`, or with the terminator split over the reads `.` and
`\n`, the loop writes the terminator bytes to the file as well (5 bytes),
sends no reply and goes on reading. -/
theorem put_terminator_inside_or_across_reads_is_written :
    run aliceTable (commandState true 0 emptyStore) [received "PUT f\n", received "hi\n.\n"]
      = { sends := [],
          next := payloadState (commandState true 0 emptyStore).session "f".toList 5
            { entries := [{ name := "f".toList, regular := true, content := "hi\n.\n".toList }],
              unreadable := [], unwritable := [], undeletable := [] } }
    ∧ run aliceTable (commandState true 0 emptyStore)
        [received "PUT f\n", received "hi\n", received ".", received "\n"]
      = { sends := [],
          next := payloadState (commandState true 0 emptyStore).session "f".toList 5
            { entries := [{ name := "f".toList, regular := true, content := "hi\n.\n".toList }],
              unreadable := [], unwritable := [], undeletable := [] } } := by
  decide

/-- C5 (amended): the payload loop compares each read as a whole with `".\n"`.
For every accepted `PUT <name>` and every sequence of reads none of which
fails or is exactly `".\n"`, followed by a read that is exactly `".\n"`, the
loop writes exactly the bytes `P` of the earlier reads to the (truncated)
target file, does not write the terminator, replies
`200 <N> Byte <name> file retrieved by server and was saved.\n` with
`N = length P`, and the session is back in its command loop. -/
theorem put_payload_of_whole_reads (credentials : Credentials) (st : State) (data : Bytes)
    (reads : List RecvResult) (hctl : st.control = Control.clientLoop)
    (hauth : st.session.isAuthenticated = true) (hdata : data ≠ [])
    (hput : toUpper ((cString data).take 3) = putKeyword)
    (hname : secondToken (cString data) ≠ [])
    (hopen : secondToken (cString data) ∉ st.store.unwritable)
    (hreads : ∀ r ∈ reads, r ≠ RecvResult.failed ∧ r ≠ RecvResult.bytes terminator) :
    run credentials st (Event.recv (RecvResult.bytes data) ::
        (reads.map Event.recv ++ [Event.recv (RecvResult.bytes terminator)]))
      = { sends := [savedLine (payloadOf reads).length (secondToken (cString data))],
          next := { session := st.session, control := Control.clientLoop,
                    store := (st.store.truncate (secondToken (cString data))).append
                      (secondToken (cString data)) (payloadOf reads) } }
    ∧ ((st.store.truncate (secondToken (cString data))).append
          (secondToken (cString data)) (payloadOf reads)).read (secondToken (cString data))
        = payloadOf reads := by
  have hq : cString data ≠ quitMessage :=
    not_quit_of_keyword _ _ hput (by decide)
  constructor
  · rw [run_cons, step_clientLoop_bytes credentials st data hctl hdata,
      handleMessage_authenticated credentials _ _ _ hq hauth,
      authenticatedBranch_put _ _ _ hput, handlePutCommand_opened _ _ hname hopen]
    have hrun := run_payload credentials st.session (secondToken (cString data)) reads hreads 0
      (st.store.truncate (secondToken (cString data)))
    unfold payloadState at hrun
    simp only [hrun, List.nil_append, Nat.zero_add]
  · rw [FileStore.read_append _ _ _ (FileStore.fileExists_truncate _ _),
      FileStore.read_truncate, List.nil_append]

theorem put_payload_of_whole_reads_witness :
    run aliceTable (commandState true 0 emptyStore)
        [received "PUT hello.txt\n", received "hi\n", received ".\n"]
      = { sends := ["200 3 Byte hello.txt file retrieved by server and was saved.\n".toList],
          next := commandState true 0
            { entries := [{ name := "hello.txt".toList, regular := true, content := "hi\n".toList }],
              unreadable := [], unwritable := [], undeletable := [] } } :=
  (put_payload_of_whole_reads aliceTable (commandState true 0 emptyStore)
    "PUT hello.txt\n".toList [RecvResult.bytes "hi\n".toList] rfl rfl (by decide) (by decide)
    (by decide) (by decide) (by decide)).1

/-- The loop of `handleClient` ends on a read of 0 bytes: the thread
disconnects without sending anything. -/
theorem client_loop_ends_on_peer_close (credentials : Credentials) (s : Session)
    (fs : FileStore) :
    step credentials { session := s, control := Control.clientLoop, store := fs }
        (Event.recv (RecvResult.bytes []))
      = { sends := [],
          next := { session := s, control := Control.disconnected, store := fs } } := by
  simp [step, handleClientRecv]

/-- C6 (the code at the failing input): inside the payload loop of
`handlePutCommand` a read of 0 bytes, which is what a socket closed by the peer
returns, changes nothing; after any number of such reads the thread is still
at the head of that loop, has sent nothing and has not disconnected. -/
theorem put_loop_survives_peer_close (credentials : Credentials) (s : Session)
    (fs : FileStore) (filename : Bytes) (totalBytes : Nat) (n : Nat) :
    run credentials (payloadState s filename totalBytes fs)
        (List.replicate n (Event.recv (RecvResult.bytes [])))
      = { sends := [], next := payloadState s filename totalBytes fs } := by
  induction n with
  | zero => rfl
  | succ n ih =>
      have hne : ([] : Bytes) ≠ terminator := by decide
      rw [List.replicate_succ, run_cons, step_payloadState,
        handlePutRecv_data s fs filename totalBytes [] hne, FileStore.append_nil]
      simp only [List.length_nil, Nat.add_zero, ih, List.nil_append]

/-- A `GET` that follows a completed `PUT` of the same name, in any
authenticated session on the directory the `PUT` left, is answered by
`getResponse` of the uploaded bytes. -/
theorem get_after_put (credentials : Credentials) (s : Session) (fs : FileStore)
    (filename payload data : Bytes) (hauth : s.isAuthenticated = true) (hdata : data ≠ [])
    (hget : toUpper ((cString data).take 3) = getKeyword)
    (hname : secondToken (cString data) = filename) (hne : filename ≠ [])
    (hopen : filename ∉ fs.unreadable) :
    step credentials
        { session := s, control := Control.clientLoop,
          store := (fs.truncate filename).append filename payload }
        (Event.recv (RecvResult.bytes data))
      = { sends := [getResponse payload],
          next := { session := s, control := Control.clientLoop,
                    store := (fs.truncate filename).append filename payload } } := by
  have hq : cString data ≠ quitMessage :=
    not_quit_of_keyword _ _ hget (by decide)
  have hex : ((fs.truncate filename).append filename payload).fileExists filename = true := by
    rw [FileStore.fileExists_append, FileStore.fileExists_truncate]
  have hread : ((fs.truncate filename).append filename payload).read filename = payload := by
    rw [FileStore.read_append _ _ _ (FileStore.fileExists_truncate _ _),
      FileStore.read_truncate, List.nil_append]
  have hopen2 : filename ∉ ((fs.truncate filename).append filename payload).unreadable := by
    unfold FileStore.append FileStore.truncate
    split_ifs <;> exact hopen
  subst hname
  rw [step_clientLoop_bytes credentials _ data rfl hdata,
    handleMessage_authenticated credentials _ _ _ hq hauth,
    authenticatedBranch_get _ _ _ hget]
  simp only
  rw [handleGetCommand_found _ _ hne hex hopen2, hread]

/-- The response built by `handleGetCommand` for a file that is not empty: its
bytes, then the trailer. -/
theorem getResponse_nonempty (content : Bytes) (h : content ≠ []) :
    getResponse content = content ++ "\n.\n".toList := by
  simp [getResponse, h]

/-- C4 (the code at the failing input): after `PUT e` with a payload that is
only the terminator, the file `e` exists and is empty, and `GET e` is answered
by a single send of zero bytes: neither the (empty) content nor the trailer
`\n.\n` reaches the client. -/
theorem get_of_empty_upload_sends_no_trailer :
    (run aliceTable (commandState true 0 emptyStore)
        [received "PUT e\n", received ".\n"]).sends
      = ["200 0 Byte e file retrieved by server and was saved.\n".toList]
    ∧ (run aliceTable (commandState true 0 emptyStore)
        [received "PUT e\n", received ".\n"]).next.store.fileExists "e".toList = true
    ∧ (run aliceTable (commandState true 0 emptyStore)
        [received "PUT e\n", received ".\n"]).next.store.read "e".toList = []
    ∧ (step aliceTable
        (run aliceTable (commandState true 0 emptyStore)
          [received "PUT e\n", received ".\n"]).next (received "GET e\n")).sends = [[]]
    ∧ wire (step aliceTable
        (run aliceTable (commandState true 0 emptyStore)
          [received "PUT e\n", received ".\n"]).next (received "GET e\n")).sends
        ≠ [] ++ "\n.\n".toList := by
  decide

/-! ## Replies of an authenticated session -/

theorem beginsWithStatus_usageLine (cmd : String) : beginsWithStatus (usageLine cmd) :=
  Or.inr (Or.inl ⟨" Invalid command. Use: ".toList ++ cmd.toList ++ " <filename>\n".toList, rfl⟩)

theorem beginsWithStatus_internalErrorLine : beginsWithStatus internalErrorLine := by decide

theorem beginsWithStatus_invalidCommandLine : beginsWithStatus invalidCommandLine := by decide

theorem beginsWithStatus_canNotSaveLine : beginsWithStatus canNotSaveLine := by decide

theorem beginsWithStatus_cannotSaveLine : beginsWithStatus cannotSaveLine := by decide

theorem beginsWithStatus_getNotFoundLine (filename : Bytes) :
    beginsWithStatus (getNotFoundLine filename) :=
  Or.inr (Or.inr (Or.inl ⟨" File ".toList ++ filename ++ " not found.\n".toList, rfl⟩))

theorem beginsWithStatus_delNotFoundLine (filename : Bytes) :
    beginsWithStatus (delNotFoundLine filename) :=
  Or.inr (Or.inr (Or.inl ⟨" File ".toList ++ filename ++ " not on the server.\n".toList, rfl⟩))

theorem beginsWithStatus_deletedLine (filename : Bytes) :
    beginsWithStatus (deletedLine filename) :=
  Or.inl ⟨" File ".toList ++ filename ++ " deleted.\n".toList, rfl⟩

theorem beginsWithStatus_savedLine (totalBytes : Nat) (filename : Bytes) :
    beginsWithStatus (savedLine totalBytes filename) :=
  Or.inl ⟨" ".toList ++ decimal totalBytes ++ " Byte ".toList ++ filename ++
    " file retrieved by server and was saved.\n".toList, by simp [savedLine]⟩

theorem handleDelCommand_status (fs : FileStore) (message : Bytes) :
    ∃ line, (handleDelCommand fs message).1 = [line] ∧ beginsWithStatus line := by
  unfold handleDelCommand
  simp only
  split_ifs
  · exact ⟨_, rfl, beginsWithStatus_usageLine "DEL"⟩
  · exact ⟨_, rfl, beginsWithStatus_delNotFoundLine _⟩
  · exact ⟨_, rfl, beginsWithStatus_internalErrorLine⟩
  · exact ⟨_, rfl, beginsWithStatus_deletedLine _⟩

theorem handleGetCommand_status (fs : FileStore) (message : Bytes)
    (hfail : ¬ (secondToken message ≠ [] ∧ fs.fileExists (secondToken message) = true
      ∧ secondToken message ∉ fs.unreadable)) :
    ∃ line, handleGetCommand fs message = [line] ∧ beginsWithStatus line := by
  unfold handleGetCommand
  simp only
  split_ifs with h1 h2 h3
  · exact ⟨_, rfl, beginsWithStatus_usageLine "GET"⟩
  · exact ⟨_, rfl, beginsWithStatus_getNotFoundLine _⟩
  · exact ⟨_, rfl, beginsWithStatus_internalErrorLine⟩
  · exfalso
    apply hfail
    refine ⟨h1, ?_, h3⟩
    simpa using h2

theorem handlePutCommand_status (fs : FileStore) (message : Bytes)
    (hfail : ¬ (secondToken message ≠ [] ∧ secondToken message ∉ fs.unwritable)) :
    (∃ line, (handlePutCommand fs message).1 = [line] ∧ beginsWithStatus line)
    ∧ (handlePutCommand fs message).2.1 = Control.clientLoop := by
  unfold handlePutCommand
  simp only
  split_ifs with h1 h2
  · exact ⟨⟨_, rfl, beginsWithStatus_usageLine "PUT"⟩, rfl⟩
  · exact ⟨⟨_, rfl, beginsWithStatus_canNotSaveLine⟩, rfl⟩
  · exact absurd ⟨h1, h2⟩ hfail

theorem handlePutRecv_status (s : Session) (fs : FileStore) (filename : Bytes)
    (totalBytes : Nat) (r : RecvResult) :
    ((handlePutRecv s fs filename totalBytes r).sends = []
      ∧ ∃ n, (handlePutRecv s fs filename totalBytes r).next.control = Control.putLoop filename n)
    ∨ ((∃ line, (handlePutRecv s fs filename totalBytes r).sends = [line]
          ∧ beginsWithStatus line)
      ∧ (handlePutRecv s fs filename totalBytes r).next.control = Control.clientLoop) := by
  cases r with
  | wouldBlock => exact Or.inl ⟨rfl, _, rfl⟩
  | failed => exact Or.inr ⟨⟨_, rfl, beginsWithStatus_cannotSaveLine⟩, rfl⟩
  | bytes data =>
      unfold handlePutRecv
      simp only
      split_ifs
      · exact Or.inr ⟨⟨_, rfl, beginsWithStatus_savedLine _ _⟩, rfl⟩
      · exact Or.inl ⟨rfl, _, rfl⟩

theorem handleGetCommand_congr (fs : FileStore) (m₁ m₂ : Bytes)
    (h : secondToken m₁ = secondToken m₂) : handleGetCommand fs m₁ = handleGetCommand fs m₂ := by
  unfold handleGetCommand
  rw [h]

theorem handlePutCommand_congr (fs : FileStore) (m₁ m₂ : Bytes)
    (h : secondToken m₁ = secondToken m₂) : handlePutCommand fs m₁ = handlePutCommand fs m₂ := by
  unfold handlePutCommand
  rw [h]

theorem handleDelCommand_congr (fs : FileStore) (m₁ m₂ : Bytes)
    (h : secondToken m₁ = secondToken m₂) : handleDelCommand fs m₁ = handleDelCommand fs m₂ := by
  unfold handleDelCommand
  rw [h]

/-- In the authenticated branch two messages that agree after `toUpper` and in
their argument token are handled alike: the keywords `PING`, `LIST`, `GET`,
`PUT`, `DEL` are matched without regard to case. -/
theorem authenticatedBranch_ignores_keyword_case (s : Session) (fs : FileStore) (m₁ m₂ : Bytes)
    (hupper : toUpper m₁ = toUpper m₂) (harg : secondToken m₁ = secondToken m₂) :
    authenticatedBranch s fs m₁ = authenticatedBranch s fs m₂ := by
  unfold authenticatedBranch
  rw [toUpper_take 3 m₁, toUpper_take 3 m₂, hupper, handleGetCommand_congr fs m₁ m₂ harg,
    handlePutCommand_congr fs m₁ m₂ harg, handleDelCommand_congr fs m₁ m₂ harg]

/-- C8 (the code at the failing inputs): `USER` and `QUIT` are compared
literally.  `user alice wonder` from an unauthenticated client gets the `401`
line where `USER alice wonder` logs in; `quit` gets the `401` line before
login and `400 Invalid command.` after it, where `QUIT` gets `Goodbye!` and
ends the thread. -/
theorem lower_case_user_and_quit_are_not_recognised :
    step aliceTable (commandState false 0 emptyStore) (received "USER alice wonder\n")
      = { sends := [grantedLine "alice".toList],
          next := { session := aliceSession, control := Control.clientLoop,
                    store := emptyStore } }
    ∧ step aliceTable (commandState false 0 emptyStore) (received "user alice wonder\n")
      = { sends := [unauthorizedLine], next := commandState false 0 emptyStore }
    ∧ step aliceTable (commandState false 0 emptyStore) (received "QUIT\n")
      = { sends := [goodbyeLine],
          next := { session := (commandState false 0 emptyStore).session,
                    control := Control.disconnected, store := emptyStore } }
    ∧ step aliceTable (commandState false 0 emptyStore) (received "quit\n")
      = { sends := [unauthorizedLine], next := commandState false 0 emptyStore }
    ∧ step aliceTable (commandState true 0 emptyStore) (received "QUIT\n")
      = { sends := [goodbyeLine],
          next := { session := (commandState true 0 emptyStore).session,
                    control := Control.disconnected, store := emptyStore } }
    ∧ step aliceTable (commandState true 0 emptyStore) (received "quit\n")
      = { sends := [invalidCommandLine], next := commandState true 0 emptyStore } := by
  decide

/-! ## The registry -/

theorem acceptClient_bounded (srv : Server) (c : Int) (h : srv.bounded) :
    (acceptClient srv c).2.bounded := by
  unfold acceptClient
  unfold Server.bounded at h ⊢
  split_ifs with hlt
  · simp only [List.length_append, List.length_singleton]
    omega
  · exact h

theorem disconnectClient_bounded (srv : Server) (c : Int) (h : srv.bounded) :
    (disconnectClient srv c).bounded := by
  unfold disconnectClient
  unfold Server.bounded at h ⊢
  have hle : (srv.clientSockets.erase c).length ≤ srv.clientSockets.length :=
    (List.erase_sublist c srv.clientSockets).length_le
  simp only
  omega

theorem signalHandler_bounded (srv : Server) (sig : Int) (h : srv.bounded) :
    (signalHandler srv sig).bounded := by
  unfold signalHandler
  unfold Server.bounded at h ⊢
  split_ifs
  · simp only [List.length_nil]
    omega
  · exact h

theorem serverStep_bounded (srv : Server) (e : ServerEvent) (h : srv.bounded) :
    (serverStep srv e).bounded := by
  cases e with
  | accepted c => exact acceptClient_bounded srv c h
  | sessionExit c => exact disconnectClient_bounded srv c h
  | signalled sig => exact signalHandler_bounded srv sig h

theorem serverRun_bounded (history : List ServerEvent) :
    ∀ srv : Server, srv.bounded → (serverRun srv history).bounded := by
  induction history with
  | nil => intro srv h; exact h
  | cons e es ih =>
      intro srv h
      exact ih _ (serverStep_bounded srv e h)

theorem serverStart_bounded : serverStart.bounded := by
  unfold Server.bounded serverStart MAX_CLIENTS
  simp

/-- C9: in every state the supervisor reaches from its start by accepting
connections, session exits through `disconnectClient` and signals, the
registry `clientSockets` holds at most 100 sockets; and a connection accepted
while it holds 100 is closed without being registered. -/
theorem registry_holds_at_most_100 (history : List ServerEvent) (clientSocket : Int) :
    (serverRun serverStart history).clientSockets.length ≤ 100
    ∧ ((serverRun serverStart history).clientSockets.length = 100 →
        acceptClient (serverRun serverStart history) clientSocket
          = (Admission.closed, serverRun serverStart history)) := by
  have h := serverRun_bounded history serverStart serverStart_bounded
  unfold Server.bounded MAX_CLIENTS at h
  refine ⟨by omega, ?_⟩
  intro hfull
  have hnot : ¬ (serverRun serverStart history).clientThreads.length < MAX_CLIENTS := by
    unfold MAX_CLIENTS
    omega
  unfold acceptClient
  rw [if_neg hnot]

set_option maxRecDepth 100000 in
theorem registry_holds_at_most_100_witness :
    (serverRun serverStart hundredAccepts).clientSockets.length = 100
    ∧ acceptClient (serverRun serverStart hundredAccepts) 104
        = (Admission.closed, serverRun serverStart hundredAccepts) :=
  ⟨by decide, (registry_holds_at_most_100 hundredAccepts 104).2 (by decide)⟩

set_option maxRecDepth 100000 in
/-- C10 (the code at the failing input): after 100 accepted connections one
session exits, so 99 sockets are registered; the next accepted connection is
closed and not registered all the same, because `main` tests the number of
threads ever started, not the size of the registry. -/
theorem connection_refused_with_99_live_sessions :
    (serverRun serverStart (hundredAccepts ++ [ServerEvent.sessionExit 4])).clientSockets.length
        = 99
    ∧ (serverRun serverStart (hundredAccepts ++ [ServerEvent.sessionExit 4])).clientThreads.length
        = 100
    ∧ acceptClient (serverRun serverStart (hundredAccepts ++ [ServerEvent.sessionExit 4])) 104
        = (Admission.closed,
            serverRun serverStart (hundredAccepts ++ [ServerEvent.sessionExit 4])) := by
  decide

end FtpServer
